import Mathlib

/-!
Shallow embedding of the Auto-deploy-webhook repository (an Express-based
GitHub webhook deployer).  The repository consists of near-duplicate variants
of one ~150-line program:

  * `src/app.js`            — single global script, raw-body signature check;
  * `src/unnamed/part_000`  — single global script, raw-body check, but
                              `exec` is called WITHOUT an `env` option;
  * `src/unnamed/part_001`  — per-repository script mapping, raw-body check;
  * `src/unnamed/part_002`  — identical code to `part_001` plus comments;
  * `src/unnamed/part_003`  — older variant: signature computed over
                              `JSON.stringify(payload)`, no `sha256=` scheme
                              check, and no script-path validation at startup.

Platform primitives (Node's `crypto.createHmac(...).digest('hex')`,
`fs.existsSync`) are modelled as explicit function parameters: the programs
treat the digest as an opaque hex string and the filesystem as an oracle.
`JSON.parse` / `JSON.stringify`, `Buffer.from(s, 'hex')`,
`crypto.timingSafeEqual`, `String.prototype.replace`, `path.normalize` and
`path.isAbsolute` (POSIX) are embedded concretely below, following Node's
semantics.  Request bodies are modelled as `String` (the raw-body middleware
captures the body with `encoding: 'utf8'`).
-/

namespace AutoDeploy

/-- JSON values, as produced by `JSON.parse`. -/
inductive Json where
  | null : Json
  | bool : Bool → Json
  | num : Int → Json
  | str : String → Json
  | arr : List Json → Json
  | obj : List (String × Json) → Json

/-- Last-binding-wins field lookup, matching JS object semantics where a
later duplicate key overrides an earlier one. -/
def jLookup : List (String × Json) → String → Option Json
  | [], _ => none
  | (k', v) :: rest, k =>
    match jLookup rest k with
    | some r => some r
    | none => if k' = k then some v else none

/-- JS truthiness of a possibly-`undefined` JSON value (`none` = undefined). -/
def jsTruthy : Option Json → Bool
  | none => false
  | some Json.null => false
  | some (Json.bool b) => b
  | some (Json.num n) => n != 0
  | some (Json.str s) => s ≠ ""
  | some (Json.arr _) => true
  | some (Json.obj _) => true

/-- JS string coercion of a possibly-`undefined` JSON value, as it appears in
template literals and in child-process environment values. -/
def jsDisplay : Option Json → String
  | none => "undefined"
  | some Json.null => "null"
  | some (Json.bool b) => if b then "true" else "false"
  | some (Json.num n) => toString n
  | some (Json.str s) => s
  | some (Json.arr _) => ""
  | some (Json.obj _) => "[object Object]"

/-- Display of an optional header value in a template literal. -/
def optDisplay : Option String → String
  | none => "undefined"
  | some s => s

/-- Escaping of one character inside a JSON string literal
(`JSON.stringify` semantics for the characters we model). -/
def escapeJsonChar (c : Char) : List Char :=
  if c = '"' then ['\\', '"']
  else if c = '\\' then ['\\', '\\']
  else if c = '\n' then ['\\', 'n']
  else if c = '\t' then ['\\', 't']
  else [c]

/-- A JSON string literal with quotes, `JSON.stringify` style. -/
def quoteJson (s : String) : String :=
  ⟨'"' :: (s.data.flatMap escapeJsonChar) ++ ['"']⟩

mutual

/-- Node's `JSON.stringify` on parsed values (no indentation). -/
def jsonStringify : Json → String
  | Json.null => "null"
  | Json.bool b => if b then "true" else "false"
  | Json.num n => toString n
  | Json.str s => quoteJson s
  | Json.arr xs => "[" ++ String.intercalate "," (stringifyArr xs) ++ "]"
  | Json.obj fs => "\x7b" ++ String.intercalate "," (stringifyObj fs) ++ "\x7d"

def stringifyArr : List Json → List String
  | [] => []
  | x :: xs => jsonStringify x :: stringifyArr xs

def stringifyObj : List (String × Json) → List String
  | [] => []
  | (k, v) :: fs => (quoteJson k ++ ":" ++ jsonStringify v) :: stringifyObj fs

end

/-- JSON whitespace. -/
def isJsonWs (c : Char) : Bool :=
  c = ' ' || c = '\n' || c = '\t' || c = '\r'

def skipWs (l : List Char) : List Char := l.dropWhile isJsonWs

/-- Body of a JSON string literal: consumes characters up to the closing
quote, handling the escapes we model; `none` on an unterminated literal. -/
def parseStrBody : List Char → List Char → Option (String × List Char)
  | [], _ => none
  | '"' :: rest, acc => some (⟨acc.reverse⟩, rest)
  | '\\' :: c :: rest, acc =>
    if c = '"' then parseStrBody rest ('"' :: acc)
    else if c = '\\' then parseStrBody rest ('\\' :: acc)
    else if c = 'n' then parseStrBody rest ('\n' :: acc)
    else if c = 't' then parseStrBody rest ('\t' :: acc)
    else none
  | '\\' :: [], _ => none
  | c :: rest, acc => parseStrBody rest (c :: acc)

def digitVal (c : Char) : Option Nat :=
  if '0' ≤ c ∧ c ≤ '9' then some (c.toNat - '0'.toNat) else none

/-- Digit-run accumulation for integer literals. -/
def parseNatAcc : List Char → Nat → Nat × List Char
  | [], acc => (acc, [])
  | c :: rest, acc =>
    match digitVal c with
    | some d => parseNatAcc rest (10 * acc + d)
    | none => (acc, c :: rest)

/-- Integer-literal parse: at least one digit, value and remainder. -/
def parseNatLit : List Char → Option (Nat × List Char)
  | [] => none
  | c :: rest =>
    match digitVal c with
    | none => none
    | some d => parseNatAcc rest d

mutual

/-- Fuel-indexed JSON value parser (integers, strings, `null`, booleans,
arrays, objects), mirroring `JSON.parse` on the fragment of JSON that the
webhook payloads use.  Leading whitespace must already be consumed. -/
def parseVal : Nat → List Char → Option (Json × List Char)
  | 0, _ => none
  | _ + 1, 'n' :: 'u' :: 'l' :: 'l' :: rest => some (Json.null, rest)
  | _ + 1, 't' :: 'r' :: 'u' :: 'e' :: rest => some (Json.bool true, rest)
  | _ + 1, 'f' :: 'a' :: 'l' :: 's' :: 'e' :: rest => some (Json.bool false, rest)
  | _ + 1, '"' :: rest =>
    match parseStrBody rest [] with
    | some (s, rem) => some (Json.str s, rem)
    | none => none
  | fuel + 1, '[' :: rest =>
    let rest' := skipWs rest
    match rest' with
    | ']' :: rem => some (Json.arr [], rem)
    | _ =>
      match parseElems fuel rest' with
      | some (xs, rem) => some (Json.arr xs, rem)
      | none => none
  | fuel + 1, '\x7b' :: rest =>
    let rest' := skipWs rest
    match rest' with
    | '\x7d' :: rem => some (Json.obj [], rem)
    | _ =>
      match parseFields fuel rest' with
      | some (fs, rem) => some (Json.obj fs, rem)
      | none => none
  | _ + 1, '-' :: rest =>
    match parseNatLit rest with
    | some (n, rem) => some (Json.num (-(n : Int)), rem)
    | none => none
  | _ + 1, l =>
    match parseNatLit l with
    | some (n, rem) => some (Json.num (n : Int), rem)
    | none => none

/-- One-or-more comma-separated array elements, then `]`. -/
def parseElems : Nat → List Char → Option (List Json × List Char)
  | 0, _ => none
  | fuel + 1, l =>
    match parseVal fuel l with
    | none => none
    | some (v, rem) =>
      match skipWs rem with
      | ',' :: rem' =>
        match parseElems fuel (skipWs rem') with
        | some (xs, rem'') => some (v :: xs, rem'')
        | none => none
      | ']' :: rem' => some ([v], rem')
      | _ => none

/-- One-or-more comma-separated `"key": value` fields, then the closing
brace. -/
def parseFields : Nat → List Char → Option (List (String × Json) × List Char)
  | 0, _ => none
  | fuel + 1, l =>
    match l with
    | '"' :: rest =>
      match parseStrBody rest [] with
      | none => none
      | some (k, rem) =>
        match skipWs rem with
        | ':' :: rem' =>
          match parseVal fuel (skipWs rem') with
          | none => none
          | some (v, rem'') =>
            match skipWs rem'' with
            | ',' :: rem3 =>
              match parseFields fuel (skipWs rem3) with
              | some (fs, rem4) => some ((k, v) :: fs, rem4)
              | none => none
            | '\x7d' :: rem3 => some ([(k, v)], rem3)
            | _ => none
        | _ => none
    | _ => none

end

/-- `JSON.parse` on a whole body: one value surrounded by whitespace,
`none` (an exception in JS) on anything else. -/
def jsonParse (s : String) : Option Json :=
  match parseVal (s.data.length + 1) (skipWs s.data) with
  | some (v, rest) => if skipWs rest = [] then some v else none
  | none => none

/-! ## Hex decoding and constant-time comparison

`Buffer.from(s, 'hex')` decodes pairs of hex digits and stops at the first
invalid pair (or odd leftover), truncating.  `crypto.timingSafeEqual` throws
a `RangeError` when the two buffers have different lengths; in the verifiers
that throw is caught and turned into `false`. -/

def hexVal (c : Char) : Option Nat :=
  if '0' ≤ c ∧ c ≤ '9' then some (c.toNat - '0'.toNat)
  else if 'a' ≤ c ∧ c ≤ 'f' then some (c.toNat - 'a'.toNat + 10)
  else if 'A' ≤ c ∧ c ≤ 'F' then some (c.toNat - 'A'.toNat + 10)
  else none

def hexDecodeL : List Char → List Nat
  | c1 :: c2 :: rest =>
    match hexVal c1, hexVal c2 with
    | some h, some lo => (16 * h + lo) :: hexDecodeL rest
    | _, _ => []
  | _ => []

/-- Node's `Buffer.from(s, 'hex')` as a byte list. -/
def hexDecode (s : String) : List Nat := hexDecodeL s.data

/-- Is every character of the string a hex digit?  Used to state what a
malformed hex payload is; `Buffer.from(s, 'hex')` silently truncates at the
first character violating this. -/
def isHexStr (s : String) : Bool := s.data.all (fun c => (hexVal c).isSome)

/-- `crypto.timingSafeEqual` wrapped in the verifiers' `try/catch`: a length
mismatch (which throws in Node) becomes `false`. -/
def timingSafeEqTry (a b : List Nat) : Bool :=
  if a.length = b.length then a == b else false

/-- UTF-8 bytes of a string, for `Buffer.from(s)` without an encoding
argument (the part_003 verifier compares such buffers). -/
def utf8Bytes (s : String) : List Nat := s.data.map Char.toNat

/-! ## Requests and the signature verifiers -/

/-- The request headers the programs read.  `none` models an absent header. -/
structure Headers where
  sig : Option String
  event : Option String
  delivery : Option String

/-- A request as seen by the `/githubwebhook` handler: headers plus the raw
body captured by the raw-body middleware (`none` when capture did not run). -/
structure Req where
  headers : Headers
  rawBody : Option String

/-- The scheme tag checked by `signature.startsWith('sha256=')`. -/
def sigScheme : String := "sha256="

/-- `verifyGitHubSignature` of `app.js` / `part_000` / `part_001` /
`part_002`, parameterized by the platform digest `hmacHex secret message`
(Node's `crypto.createHmac('sha256', secret).update(message).digest('hex')`).
Mirrors the JS control flow: falsy header → false; wrong scheme → false;
falsy raw body → false; otherwise compare `Buffer.from(sig, 'hex')` against
`Buffer.from(digest, 'hex')` with `timingSafeEqual` under `try/catch`. -/
def verifyGitHubSignature (hmacHex : String → String → String)
    (secret : String) (req : Req) : Bool :=
  match req.headers.sig with
  | none => false
  | some signature =>
    if signature = "" then false
    else if ¬ (sigScheme.data.isPrefixOf signature.data) then false
    else
      match req.rawBody with
      | none => false
      | some raw =>
        if raw = "" then false
        else
          let sig : String := ⟨signature.data.drop 7⟩
          let digest := hmacHex secret raw
          timingSafeEqTry (hexDecode sig) (hexDecode digest)

/-- `verifySignature` of `part_003`: the digest is computed over
`JSON.stringify(payload)` (the re-serialized parsed body), the header is
split on `=` and the second component taken with no scheme check, and the
comparison is `timingSafeEqual(Buffer.from(sig), Buffer.from(digest))` on
UTF-8 bytes; a missing second component (`Buffer.from(undefined)` throws)
and a length mismatch are caught and become `false`. -/
def verifySignatureP3 (hmacHex : String → String → String)
    (payload : Json) (signature : Option String) (secret : String) : Bool :=
  match signature with
  | none => false
  | some s =>
    if s = "" then false
    else
      match (s.data.splitOn '=').get? 1 with
      | none => false
      | some sigChars =>
        let digest := hmacHex secret (jsonStringify payload)
        timingSafeEqTry (utf8Bytes ⟨sigChars⟩) (utf8Bytes digest)

/-! ## `String.prototype.replace` with a string pattern

JS `s.replace(pat, repl)` with a string pattern replaces only the FIRST
occurrence of `pat` anywhere in `s` (not specifically a leading prefix). -/

def replaceFirstL (pat repl : List Char) : List Char → List Char
  | [] => if pat.isPrefixOf ([] : List Char) then repl else []
  | c :: cs =>
    if pat.isPrefixOf (c :: cs) then repl ++ (c :: cs).drop pat.length
    else c :: replaceFirstL pat repl cs

def jsReplaceFirst (s pat repl : String) : String :=
  ⟨replaceFirstL pat.data repl.data s.data⟩

/-- Does `pat` occur as a contiguous substring of the list? -/
def containsSub (pat : List Char) : List Char → Bool
  | [] => pat.isPrefixOf ([] : List Char)
  | c :: cs => pat.isPrefixOf (c :: cs) || containsSub pat cs

/-- Branch extraction used by every variant:
`payload.ref.replace('refs/heads/', '')`. -/
def extractBranch (ref : String) : String :=
  jsReplaceFirst ref "refs/heads/" ""

/-! ## POSIX `path.normalize` / `path.isAbsolute` and the path validator -/

/-- Segment resolution of Node's `normalizeString`: `..` pops a previous
segment, is kept when the stack top is itself `..` (relative paths), and is
dropped at the root of an absolute path.  `acc` is the reversed stack. -/
def normSegs (abs : Bool) (acc : List (List Char)) : List (List Char) → List (List Char)
  | [] => acc.reverse
  | seg :: rest =>
    if seg = ['.', '.'] then
      match acc with
      | [] => if abs then normSegs abs [] rest else normSegs abs [seg] rest
      | top :: acc' =>
        if top = ['.', '.'] then normSegs abs (seg :: acc) rest
        else normSegs abs acc' rest
    else normSegs abs (seg :: acc) rest

/-- Node's `path.posix.normalize`. -/
def posixNormalize (s : String) : String :=
  match s.data with
  | [] => "."
  | c :: cs =>
    let l := c :: cs
    let abs := c = '/'
    let trailing := l.getLast? = some '/'
    let segs := (l.splitOn '/').filter (fun seg => seg ≠ [] && seg ≠ ['.'])
    let core := List.intercalate ['/'] (normSegs abs [] segs)
    match core with
    | [] => if abs then "/" else if trailing then "./" else "."
    | _ :: _ =>
      let withTrail := core ++ (if trailing then ['/'] else [])
      ⟨if abs then '/' :: withTrail else withTrail⟩

/-- Node's `path.posix.isAbsolute`. -/
def posixIsAbsolute (s : String) : Bool :=
  match s.data with
  | '/' :: _ => true
  | _ => false

/-- The seven characters of the regex `/[;&|`$<>]/` (the backtick written
via its code point). -/
def shellMetaChars : List Char :=
  [';', '&', '|', Char.ofNat 96, '$', '<', '>']

/-- `/[;&|`$<>]/.test(scriptPath)`. -/
def hasShellMeta (s : String) : Bool :=
  s.data.any (fun c => shellMetaChars.contains c)

/-- `isValidScriptPath` of `app.js` / `part_000` / `part_001` / `part_002`:
reject shell metacharacters, then require `path.isAbsolute(path.normalize p)`. -/
def isValidScriptPath (scriptPath : String) : Bool :=
  if hasShellMeta scriptPath then false
  else posixIsAbsolute (posixNormalize scriptPath)

/-! ## Startup validation -/

/-- JS truthiness of an optional environment-variable string (`undefined`
and the empty string are falsy). -/
def envTruthy : Option String → Bool
  | none => false
  | some s => s ≠ ""

/-- `(process.env.ALLOWED_BRANCHES || 'main,master').split(',')`. -/
def splitBranches (e : Option String) : List String :=
  let s := match e with
    | none => "main,master"
    | some s => if s = "" then "main,master" else s
  (s.data.splitOn ',').map (fun l => (⟨l⟩ : String))

/-- Post-startup configuration of the single-script variants. -/
structure AppConfig where
  secret : String
  script : String
  branches : List String

/-- Startup of `app.js` (and, with `DEPLOY_SCRIPT_PATH` in place of
`DEPLOYMENT_SCRIPT`, of `part_000`): exit before `app.listen` when the
secret is falsy, the script path is falsy, the script does not exist, or
`isValidScriptPath` fails.  `none` models `process.exit(1)` before the
listener binds. -/
def startupApp (existsFs : String → Bool)
    (secretE scriptE branchesE : Option String) : Option AppConfig :=
  if envTruthy secretE = false then none
  else if envTruthy scriptE = false then none
  else
    let script := scriptE.getD ""
    if existsFs script && isValidScriptPath script then
      some ⟨secretE.getD "", script, splitBranches branchesE⟩
    else none

/-- Post-startup configuration of the per-repository variants. -/
structure P1Config where
  secret : String
  branches : List String
  scripts : List (String × String)

/-- Startup of `part_001` / `part_002`: exit when the secret is falsy or when
any entry of the repository→script mapping fails the existence or
`isValidScriptPath` check. -/
def startupP1 (existsFs : String → Bool) (secretE branchesE : Option String)
    (scripts : List (String × String)) : Option P1Config :=
  if envTruthy secretE = false then none
  else if scripts.all (fun rp => existsFs rp.2 && isValidScriptPath rp.2) then
    some ⟨secretE.getD "", splitBranches branchesE, scripts⟩
  else none

/-- Startup of `part_003`: only presence of the secret and of
`DEPLOY_SCRIPT_PATH` is checked — no metacharacter, absoluteness or
existence check runs before the listener binds. -/
def startupP3 (secretE scriptE : Option String) : Option (String × String) :=
  if envTruthy secretE = false then none
  else if envTruthy scriptE = false then none
  else some (secretE.getD "", scriptE.getD "")

/-! ## JS field access and the request handlers

Property access in JS throws a `TypeError` on `undefined`/`null` receivers;
method calls (`.replace`, `.substring`) throw on receivers without the
method.  The handlers are embedded as total functions into
`Except JsErr HandlerResult`: `.error` models an exception escaping the
handler (Express then produces its own error page; none of the program's
response bodies is sent and no `exec` happens). -/

/-- A JS exception escaping the handler, tagged with the access that threw. -/
inductive JsErr where
  | typeError : String → JsErr
deriving DecidableEq

/-- Property read `recv.k`: `undefined`/`null` receivers throw; any other
non-object receiver yields `undefined`; object receivers use field lookup. -/
def jget (recv : Option Json) (k : String) : Except JsErr (Option Json) :=
  match recv with
  | none => Except.error (JsErr.typeError k)
  | some Json.null => Except.error (JsErr.typeError k)
  | some (Json.obj fs) => Except.ok (jLookup fs k)
  | some _ => Except.ok none

/-- A string-method call (`.replace` / `.substring`): `undefined`/`null`
receivers and receivers that are not strings throw; strings succeed. -/
def jsStringRecv (m : String) (v : Option Json) : Except JsErr String :=
  match v with
  | some (Json.str s) => Except.ok s
  | _ => Except.error (JsErr.typeError m)

/-- An HTTP response as produced by `res.status(..).send(..)`. -/
structure Response where
  status : Nat
  body : String
deriving DecidableEq

/-- One `exec` invocation: the shell command string and the `env` option
(`none` when no option object is passed, so the child inherits the parent
environment). -/
structure ExecCall where
  cmd : String
  envOpt : Option (List (String × String))
deriving DecidableEq

/-- The child's effective environment: the `env` option when passed,
otherwise the parent process environment. -/
def effectiveEnv (parent : List (String × String)) (c : ExecCall) :
    List (String × String) :=
  c.envOpt.getD parent

/-- Last-binding-wins lookup in an environment assoc list, matching JS
object-spread semantics where later keys override earlier ones. -/
def jsObjGet : List (String × String) → String → Option String
  | [], _ => none
  | (k', v) :: rest, k =>
    match jsObjGet rest k with
    | some r => some r
    | none => if k' = k then some v else none

/-- What one handler invocation produced: the committed response and the
`exec` call, if any (the deployment dispatch). -/
structure HandlerResult where
  resp : Response
  exec : Option ExecCall
deriving DecidableEq

/-- The six derived environment entries appended to the process environment
by the object spread `{...process.env, GITHUB_...}`. -/
def deployEnvFields (fullName repoName owner branch commit pusher : String) :
    List (String × String) :=
  [("GITHUB_REPO_FULL_NAME", fullName),
   ("GITHUB_REPO_NAME", repoName),
   ("GITHUB_REPO_OWNER", owner),
   ("GITHUB_BRANCH", branch),
   ("GITHUB_COMMIT", commit),
   ("GITHUB_PUSHER", pusher)]

/-- The push branch of `app.js`, with the source's field-access order:
`payload.repository.full_name`, `payload.ref.replace(...)`, the branch
filter, the log line reading `payload.after.substring(0,7)` and
`payload.pusher.name`, the dispatch-time `fs.existsSync` re-check, then the
env build (`payload.repository.name`, `payload.repository.owner.name ||
payload.repository.owner.login`) and `exec('bash ' + path, { env })`. -/
def handleAppPush (existsFs : String → Bool) (procEnv : List (String × String))
    (cfg : AppConfig) (payload : Json) : Except JsErr HandlerResult :=
  match jget (some payload) "repository" with
  | Except.error e => Except.error e
  | Except.ok repoJ =>
  match jget repoJ "full_name" with
  | Except.error e => Except.error e
  | Except.ok fullNameJ =>
  match jget (some payload) "ref" with
  | Except.error e => Except.error e
  | Except.ok refJ =>
  match jsStringRecv "replace" refJ with
  | Except.error e => Except.error e
  | Except.ok refStr =>
    let repoFullName := jsDisplay fullNameJ
    let branch := extractBranch refStr
    if cfg.branches.contains branch then
      match jget (some payload) "after" with
      | Except.error e => Except.error e
      | Except.ok afterJ =>
      match jsStringRecv "substring" afterJ with
      | Except.error e => Except.error e
      | Except.ok _afterStr =>
      match jget (some payload) "pusher" with
      | Except.error e => Except.error e
      | Except.ok pusherJ =>
      match jget pusherJ "name" with
      | Except.error e => Except.error e
      | Except.ok pusherNameJ =>
      if existsFs cfg.script then
        match jget repoJ "name" with
        | Except.error e => Except.error e
        | Except.ok repoNameJ =>
        match jget repoJ "owner" with
        | Except.error e => Except.error e
        | Except.ok ownerJ =>
        match jget ownerJ "name" with
        | Except.error e => Except.error e
        | Except.ok ownerNameJ =>
        match (if jsTruthy ownerNameJ then Except.ok ownerNameJ
               else jget ownerJ "login") with
        | Except.error e => Except.error e
        | Except.ok ownerVal =>
          let env := procEnv ++ deployEnvFields repoFullName
            (jsDisplay repoNameJ) (jsDisplay ownerVal) branch
            (jsDisplay afterJ) (jsDisplay pusherNameJ)
          Except.ok ⟨⟨200, "Deployment started"⟩,
            some ⟨"bash " ++ cfg.script, some env⟩⟩
      else
        Except.ok ⟨⟨500, "Deployment error: Script not found"⟩, none⟩
    else
      Except.ok ⟨⟨200, "Ignored push to " ++ branch ++ " branch"⟩, none⟩

/-- The shared outer shape of the raw-body variants' handler: JSON.parse of
the raw body (400 on failure) BEFORE the signature check (401), then `ping`,
then `push`, then the catch-all acknowledgement. -/
def handleApp (hmacHex : String → String → String)
    (parse : String → Option Json) (existsFs : String → Bool)
    (procEnv : List (String × String)) (cfg : AppConfig) (req : Req) :
    Except JsErr HandlerResult :=
  match req.rawBody.bind parse with
  | none => Except.ok ⟨⟨400, "Invalid JSON payload"⟩, none⟩
  | some payload =>
    if verifyGitHubSignature hmacHex cfg.secret req then
      if req.headers.event = some "ping" then
        Except.ok ⟨⟨200, "Webhook configured successfully"⟩, none⟩
      else if req.headers.event = some "push" then
        handleAppPush existsFs procEnv cfg payload
      else
        Except.ok ⟨⟨200, "Received " ++ optDisplay req.headers.event ++
          " event, but no action taken"⟩, none⟩
    else
      Except.ok ⟨⟨401, "Invalid signature"⟩, none⟩

/-- The push branch of `part_000`: branch first, then the filter, then the
log lines reading `payload.repository.full_name`,
`payload.after.substring(0,7)` and `payload.pusher.name`, the existence
re-check, and `exec('bash ' + path, callback)` with NO `env` option. -/
def handleP0Push (existsFs : String → Bool) (cfg : AppConfig)
    (payload : Json) : Except JsErr HandlerResult :=
  match jget (some payload) "ref" with
  | Except.error e => Except.error e
  | Except.ok refJ =>
  match jsStringRecv "replace" refJ with
  | Except.error e => Except.error e
  | Except.ok refStr =>
    let branch := extractBranch refStr
    if cfg.branches.contains branch then
      match jget (some payload) "repository" with
      | Except.error e => Except.error e
      | Except.ok repoJ =>
      match jget repoJ "full_name" with
      | Except.error e => Except.error e
      | Except.ok _fullNameJ =>
      match jget (some payload) "after" with
      | Except.error e => Except.error e
      | Except.ok afterJ =>
      match jsStringRecv "substring" afterJ with
      | Except.error e => Except.error e
      | Except.ok _afterStr =>
      match jget (some payload) "pusher" with
      | Except.error e => Except.error e
      | Except.ok pusherJ =>
      match jget pusherJ "name" with
      | Except.error e => Except.error e
      | Except.ok _pusherNameJ =>
      if existsFs cfg.script then
        Except.ok ⟨⟨200, "Deployment started"⟩,
          some ⟨"bash " ++ cfg.script, none⟩⟩
      else
        Except.ok ⟨⟨500, "Deployment error: Script not found"⟩, none⟩
    else
      Except.ok ⟨⟨200, "Ignored push to " ++ branch ++ " branch"⟩, none⟩

/-- The `part_000` handler (same outer shape as `app.js`). -/
def handleP0 (hmacHex : String → String → String)
    (parse : String → Option Json) (existsFs : String → Bool)
    (cfg : AppConfig) (req : Req) : Except JsErr HandlerResult :=
  match req.rawBody.bind parse with
  | none => Except.ok ⟨⟨400, "Invalid JSON payload"⟩, none⟩
  | some payload =>
    if verifyGitHubSignature hmacHex cfg.secret req then
      if req.headers.event = some "ping" then
        Except.ok ⟨⟨200, "Webhook configured successfully"⟩, none⟩
      else if req.headers.event = some "push" then
        handleP0Push existsFs cfg payload
      else
        Except.ok ⟨⟨200, "Received " ++ optDisplay req.headers.event ++
          " event, but no action taken"⟩, none⟩
    else
      Except.ok ⟨⟨401, "Invalid signature"⟩, none⟩

/-- The push branch of `part_001` / `part_002`: resolve
`DEPLOYMENT_SCRIPTS[repoFullName]` FIRST — a falsy result answers
"No deployment configured" — and only then apply the branch filter; then the
same tail as `app.js` (logs, existence re-check, env build, exec). -/
def handleP1Push (existsFs : String → Bool) (procEnv : List (String × String))
    (cfg : P1Config) (payload : Json) : Except JsErr HandlerResult :=
  match jget (some payload) "repository" with
  | Except.error e => Except.error e
  | Except.ok repoJ =>
  match jget repoJ "full_name" with
  | Except.error e => Except.error e
  | Except.ok fullNameJ =>
  match jget (some payload) "ref" with
  | Except.error e => Except.error e
  | Except.ok refJ =>
  match jsStringRecv "replace" refJ with
  | Except.error e => Except.error e
  | Except.ok refStr =>
    let repoFullName := jsDisplay fullNameJ
    let branch := extractBranch refStr
    match jsObjGet cfg.scripts repoFullName with
    | none =>
      Except.ok ⟨⟨200, "No deployment configured for " ++ repoFullName⟩, none⟩
    | some scriptPath =>
      if scriptPath = "" then
        Except.ok ⟨⟨200, "No deployment configured for " ++ repoFullName⟩, none⟩
      else if cfg.branches.contains branch then
        match jget (some payload) "after" with
        | Except.error e => Except.error e
        | Except.ok afterJ =>
        match jsStringRecv "substring" afterJ with
        | Except.error e => Except.error e
        | Except.ok _afterStr =>
        match jget (some payload) "pusher" with
        | Except.error e => Except.error e
        | Except.ok pusherJ =>
        match jget pusherJ "name" with
        | Except.error e => Except.error e
        | Except.ok pusherNameJ =>
        if existsFs scriptPath then
          match jget repoJ "name" with
          | Except.error e => Except.error e
          | Except.ok repoNameJ =>
          match jget repoJ "owner" with
          | Except.error e => Except.error e
          | Except.ok ownerJ =>
          match jget ownerJ "name" with
          | Except.error e => Except.error e
          | Except.ok ownerNameJ =>
          match (if jsTruthy ownerNameJ then Except.ok ownerNameJ
                 else jget ownerJ "login") with
          | Except.error e => Except.error e
          | Except.ok ownerVal =>
            let env := procEnv ++ deployEnvFields repoFullName
              (jsDisplay repoNameJ) (jsDisplay ownerVal) branch
              (jsDisplay afterJ) (jsDisplay pusherNameJ)
            Except.ok ⟨⟨200, "Deployment started"⟩,
              some ⟨"bash " ++ scriptPath, some env⟩⟩
        else
          Except.ok ⟨⟨500, "Deployment error: Script not found"⟩, none⟩
      else
        Except.ok ⟨⟨200, "Ignored push to " ++ branch ++ " branch"⟩, none⟩

/-- The `part_001` / `part_002` handler (same outer shape as `app.js`). -/
def handleP1 (hmacHex : String → String → String)
    (parse : String → Option Json) (existsFs : String → Bool)
    (procEnv : List (String × String)) (cfg : P1Config) (req : Req) :
    Except JsErr HandlerResult :=
  match req.rawBody.bind parse with
  | none => Except.ok ⟨⟨400, "Invalid JSON payload"⟩, none⟩
  | some payload =>
    if verifyGitHubSignature hmacHex cfg.secret req then
      if req.headers.event = some "ping" then
        Except.ok ⟨⟨200, "Webhook configured successfully"⟩, none⟩
      else if req.headers.event = some "push" then
        handleP1Push existsFs procEnv cfg payload
      else
        Except.ok ⟨⟨200, "Received " ++ optDisplay req.headers.event ++
          " event, but no action taken"⟩, none⟩
    else
      Except.ok ⟨⟨401, "Invalid signature"⟩, none⟩

/-- A concrete stand-in digest function used to instantiate the abstract
`hmacHex` parameter in closed counterexamples and witnesses. -/
def hmacProbe : String → String → String := fun _ msg => msg

/-! ## Concrete fixtures for closed statements -/

/-- A representative well-formed push payload. -/
def pushPayloadA : Json :=
  Json.obj [("ref", Json.str "refs/heads/main"),
    ("repository", Json.obj [("full_name", Json.str "o/r"),
      ("name", Json.str "r"),
      ("owner", Json.obj [("name", Json.str "own")])]),
    ("after", Json.str "abc1234def"),
    ("pusher", Json.obj [("name", Json.str "u")])]

def pushRawA : String := jsonStringify pushPayloadA

/-- A push request over `pushRawA` whose signature header matches the
`hmacProbe` digest of the raw body. -/
def pushReqA : Req :=
  ⟨⟨some ("sha256=" ++ pushRawA), some "push", none⟩, some pushRawA⟩

/-- A post-startup configuration of the single-script variants. -/
def cfgApp : AppConfig := ⟨"k", "/opt/d.sh", ["main", "master"]⟩

/-- A push payload whose ref names a branch outside the default allow-list. -/
def devPayload : Json :=
  Json.obj [("ref", Json.str "refs/heads/dev"),
    ("repository", Json.obj [("full_name", Json.str "o/r")])]

def devRaw : String := jsonStringify devPayload

def devReq : Req :=
  ⟨⟨some ("sha256=" ++ devRaw), some "push", none⟩, some devRaw⟩

/-- A per-repository configuration with an empty mapping. -/
def cfgP1empty : P1Config := ⟨"k", ["main", "master"], []⟩

/-- A push request whose JSON body is the empty object, signed consistently
with `hmacProbe`. -/
def emptyObjPushReq : Req :=
  ⟨⟨some "sha256=\x7b\x7d", some "push", none⟩, some "\x7b\x7d"⟩

/-- A request whose body is not JSON and which carries no signature header. -/
def badJsonReq : Req := ⟨⟨none, some "push", none⟩, some "not json"⟩

/-- A request with a well-formed JSON body and no signature header. -/
def noSigJsonReq : Req := ⟨⟨none, some "push", none⟩, some "\x7b\x7d"⟩

/-- A ping request signed consistently with `hmacProbe`. -/
def pingReq : Req :=
  ⟨⟨some "sha256=\x7b\x7d", some "ping", none⟩, some "\x7b\x7d"⟩

/-- A generic push payload shape with string leaves, used to state the
accepted-push theorems.  The owner carries a `name` field. -/
def pushShape (fn rn ow ref aft pn : String) : Json :=
  Json.obj [("ref", Json.str ref),
    ("repository", Json.obj [("full_name", Json.str fn),
      ("name", Json.str rn),
      ("owner", Json.obj [("name", Json.str ow)])]),
    ("after", Json.str aft),
    ("pusher", Json.obj [("name", Json.str pn)])]

/-- A minimal push payload shape touching only the fields the ignore paths
read. -/
def pushShapeMin (fn ref : String) : Json :=
  Json.obj [("repository", Json.obj [("full_name", Json.str fn)]),
    ("ref", Json.str ref)]

/-- The keys of the six derived environment entries. -/
def deployEnvKeys : List String :=
  ["GITHUB_REPO_FULL_NAME", "GITHUB_REPO_NAME", "GITHUB_REPO_OWNER",
   "GITHUB_BRANCH", "GITHUB_COMMIT", "GITHUB_PUSHER"]

/-- A raw wire body containing insignificant whitespace, so that it differs
from the `JSON.stringify` of its own parse. -/
def c1Raw : String := "\x7b\"a\": 1\x7d"

/-- `JSON.parse` of `c1Raw`. -/
def c1Payload : Json := Json.obj [("a", Json.num 1)]

/-- A signature header whose payload part is the `hmacProbe` digest of the
RE-SERIALIZED body `JSON.stringify c1Payload`, not of the raw body. -/
def c1Header : String := "sha256=\x7b\"a\":1\x7d"

/-! ## Helper lemmas -/

theorem isPrefixOf_nil_iff {pat : List Char} :
    pat.isPrefixOf ([] : List Char) = true ↔ pat = [] := by
  cases pat <;> simp [List.isPrefixOf]

theorem replaceFirstL_of_isPrefixOf {pat repl s : List Char}
    (h : pat.isPrefixOf s = true) :
    replaceFirstL pat repl s = repl ++ s.drop pat.length := by
  cases s with
  | nil =>
    have hp : pat = [] := isPrefixOf_nil_iff.mp h
    subst hp
    simp [replaceFirstL]
  | cons c cs =>
    simp [replaceFirstL, h]

theorem replaceFirstL_of_not_containsSub {pat repl s : List Char}
    (h : containsSub pat s = false) :
    replaceFirstL pat repl s = s := by
  induction s with
  | nil =>
    have hp : pat.isPrefixOf ([] : List Char) = false := by
      simpa [containsSub] using h
    simp [replaceFirstL, hp]
  | cons c cs ih =>
    have h' : pat.isPrefixOf (c :: cs) = false ∧ containsSub pat cs = false := by
      simpa [containsSub] using h
    simp [replaceFirstL, h'.1, ih h'.2]

theorem jsObjGet_append (a b : List (String × String)) (k : String) :
    jsObjGet (a ++ b) k =
      match jsObjGet b k with
      | some v => some v
      | none => jsObjGet a k := by
  induction a with
  | nil => cases h : jsObjGet b k <;> simp [jsObjGet, h]
  | cons p a ih =>
    obtain ⟨k', v⟩ := p
    have step : jsObjGet (((k', v) :: a) ++ b) k =
        match jsObjGet (a ++ b) k with
        | some r => some r
        | none => if k' = k then some v else none := rfl
    rw [step, ih]
    cases h1 : jsObjGet b k <;> cases h2 : jsObjGet a k <;>
      simp [jsObjGet, h1, h2]

theorem timingSafeEqTry_eq_true_iff {a b : List Nat} :
    timingSafeEqTry a b = true ↔ a = b := by
  unfold timingSafeEqTry
  constructor
  · intro h
    by_cases hl : a.length = b.length
    · simpa [hl] using h
    · simp [hl] at h
  · intro h
    subst h
    simp

/-! ## Claim C6 — branch extraction -/

/-- C6 counterexample: the ref `"a-refs/heads/main"` does not begin with the
prefix `refs/heads/`, yet the computed branch is NOT the unchanged ref —
`String.prototype.replace` removes the first occurrence of the substring
anywhere, so the branch becomes `"a-main"`. -/
theorem c6_nonprefix_occurrence_changes_branch :
    ("refs/heads/".data.isPrefixOf "a-refs/heads/main".data) = false ∧
    extractBranch "a-refs/heads/main" = "a-main" ∧
    extractBranch "a-refs/heads/main" ≠ "a-refs/heads/main" :=
  ⟨by decide, by decide, by decide⟩

/-- C6 (corrected, amended claim): the branch equals the ref with the FIRST
occurrence of `"refs/heads/"` removed; when the ref begins with that prefix
this strips the prefix, and a ref that does not contain the substring at all
is unchanged — but a ref containing the substring in non-leading position is
also changed, contrary to the original claim. -/
theorem c6_branch_extraction (ref : String) :
    ("refs/heads/".data.isPrefixOf ref.data = true →
      extractBranch ref = ⟨ref.data.drop 11⟩) ∧
    (containsSub "refs/heads/".data ref.data = false →
      extractBranch ref = ref) := by
  constructor
  · intro h
    have h2 := @replaceFirstL_of_isPrefixOf "refs/heads/".data
      ("" : String).data ref.data h
    exact congrArg String.mk h2
  · intro h
    have h2 := @replaceFirstL_of_not_containsSub "refs/heads/".data
      ("" : String).data ref.data h
    exact congrArg String.mk h2

/-- Witness for C6: the amended claim applied at concrete refs. -/
theorem c6_branch_extraction_witness :
    extractBranch "refs/heads/main" = "main" ∧
    extractBranch "feature" = "feature" := by
  constructor
  · exact ((c6_branch_extraction "refs/heads/main").1 (by decide)).trans (by decide)
  · exact (c6_branch_extraction "feature").2 (by decide)

/-! ## Claim C9 — missing payload fields throw -/

/-- C9 (confirmed): a request with a valid signature and event `push` whose
JSON body is the empty object (lacking `repository`, `ref`, `after`,
`pusher`) makes the handler throw a `TypeError` while reading
`payload.repository.full_name` — the embedded handler returns `.error`, so
no response body is produced and the dispatcher is never invoked. -/
theorem c9_missing_fields_throw :
    verifyGitHubSignature hmacProbe cfgApp.secret emptyObjPushReq = true ∧
    handleApp hmacProbe jsonParse (fun _ => true) [] cfgApp emptyObjPushReq =
      Except.error (JsErr.typeError "full_name") :=
  ⟨by decide, by rfl⟩

/-! ## Claim C4 — ping acknowledgement -/

/-- C4 (confirmed): any request whose body carries a JSON payload, with a
valid signature and event type `ping`, yields HTTP 200 with the fixed
acknowledgement body and produces no `exec` call, regardless of the payload
contents, the filesystem state or the process environment. -/
theorem c4_ping_acknowledged (hmacHex : String → String → String)
    (parse : String → Option Json) (existsFs : String → Bool)
    (procEnv : List (String × String)) (cfg : AppConfig) (req : Req)
    (payload : Json)
    (hparse : req.rawBody.bind parse = some payload)
    (hver : verifyGitHubSignature hmacHex cfg.secret req = true)
    (hevent : req.headers.event = some "ping") :
    handleApp hmacHex parse existsFs procEnv cfg req =
      Except.ok ⟨⟨200, "Webhook configured successfully"⟩, none⟩ := by
  unfold handleApp
  rw [hparse]
  simp [hver, hevent]

/-- Witness for C4: the theorem applied at a concrete signed ping request. -/
theorem c4_ping_acknowledged_witness :
    handleApp hmacProbe jsonParse (fun _ => true) [] cfgApp pingReq =
      Except.ok ⟨⟨200, "Webhook configured successfully"⟩, none⟩ :=
  c4_ping_acknowledged hmacProbe jsonParse (fun _ => true) [] cfgApp pingReq
    (Json.obj []) rfl (by decide) rfl

/-! ## Claim C2 — signature check versus JSON parsing -/

/-- C2 counterexample: the handler runs `JSON.parse` BEFORE the signature
check, so a sender with NO signature header observes payload-dependent
behaviour: a malformed body answers 400 "Invalid JSON payload" while a
well-formed body answers 401 — the malformed-JSON client error is observable
without any valid signature, contrary to the claim. -/
theorem c2_json_parse_before_signature :
    verifyGitHubSignature hmacProbe cfgApp.secret badJsonReq = false ∧
    handleApp hmacProbe jsonParse (fun _ => true) [] cfgApp badJsonReq =
      Except.ok ⟨⟨400, "Invalid JSON payload"⟩, none⟩ ∧
    verifyGitHubSignature hmacProbe cfgApp.secret noSigJsonReq = false ∧
    handleApp hmacProbe jsonParse (fun _ => true) [] cfgApp noSigJsonReq =
      Except.ok ⟨⟨401, "Invalid signature"⟩, none⟩ :=
  ⟨by decide, by rfl, by decide, by rfl⟩

/-- C2 (corrected, amended claim): signature verification precedes routing
and every payload-field read — for any request whose body parses as JSON,
an invalid or missing signature yields the constant auth-error response 401
"Invalid signature" with no dispatch, revealing nothing about which part of
the signature check failed; however it runs only AFTER `JSON.parse`, so the
malformed-JSON 400 response is observable without a valid signature. -/
theorem c2_auth_checked_before_routing (hmacHex : String → String → String)
    (parse : String → Option Json) (existsFs : String → Bool)
    (procEnv : List (String × String)) (cfg : AppConfig) (req : Req)
    (payload : Json)
    (hparse : req.rawBody.bind parse = some payload)
    (hver : verifyGitHubSignature hmacHex cfg.secret req = false) :
    handleApp hmacHex parse existsFs procEnv cfg req =
      Except.ok ⟨⟨401, "Invalid signature"⟩, none⟩ := by
  unfold handleApp
  rw [hparse]
  simp [hver]

/-- Witness for C2: the amended claim applied at a concrete unsigned request
with a well-formed JSON body. -/
theorem c2_auth_checked_before_routing_witness :
    handleApp hmacProbe jsonParse (fun _ => true) [] cfgApp noSigJsonReq =
      Except.ok ⟨⟨401, "Invalid signature"⟩, none⟩ :=
  c2_auth_checked_before_routing hmacProbe jsonParse (fun _ => true) [] cfgApp
    noSigJsonReq (Json.obj []) rfl (by decide)

/-! ## Claim C3 — startup validation -/

/-- C3 counterexample: the `part_003` variant proceeds to bind the listener
with a configured script path that contains `;`, is not absolute after
normalization, and is never checked for existence (its startup consults no
filesystem oracle at all), contrary to "this holds for every program
variant". -/
theorem c3_p3_skips_path_validation :
    hasShellMeta "relative;path.sh" = true ∧
    posixIsAbsolute (posixNormalize "relative;path.sh") = false ∧
    startupP3 (some "k") (some "relative;path.sh") =
      some ("k", "relative;path.sh") :=
  ⟨by decide, by decide, by rfl⟩

/-- C3 (corrected, amended claim): in `app.js` / `part_000` (single script)
and `part_001` / `part_002` (every mapping entry), a missing secret, a
missing script path, a nonexistent script, a shell metacharacter, or a
non-absolute normalized path aborts startup before the listener binds; the
`part_003` variant aborts only when the secret or the script-path variable
is missing and performs no metacharacter, absoluteness or existence check. -/
theorem c3_startup_fails_fast :
    (∀ (existsFs : String → Bool) (secretE scriptE branchesE : Option String),
       (envTruthy secretE = false ∨ envTruthy scriptE = false ∨
        existsFs (scriptE.getD "") = false ∨
        isValidScriptPath (scriptE.getD "") = false) →
       startupApp existsFs secretE scriptE branchesE = none) ∧
    (∀ (existsFs : String → Bool) (secretE branchesE : Option String)
       (scripts : List (String × String)) (repo p : String),
       (repo, p) ∈ scripts →
       (existsFs p = false ∨ isValidScriptPath p = false) →
       startupP1 existsFs secretE branchesE scripts = none) ∧
    (∀ secretE scriptE : Option String,
       (envTruthy secretE = false ∨ envTruthy scriptE = false) →
       startupP3 secretE scriptE = none) := by
  refine ⟨?_, ?_, ?_⟩
  · intro existsFs secretE scriptE branchesE h
    unfold startupApp
    rcases h with h | h | h | h <;> simp [h]
  · intro existsFs secretE branchesE scripts repo p hmem hbad
    unfold startupP1
    have hall : scripts.all
        (fun rp => existsFs rp.2 && isValidScriptPath rp.2) = false := by
      cases hq : scripts.all
          (fun rp => existsFs rp.2 && isValidScriptPath rp.2) with
      | false => rfl
      | true =>
        exfalso
        have := List.all_eq_true.mp hq (repo, p) hmem
        rcases hbad with h | h <;> simp [h] at this
    simp [hall]
  · intro secretE scriptE h
    unfold startupP3
    rcases h with h | h <;> simp [h]

/-- Witness for C3: the amended claim applied at concrete configurations —
a relative path for `app.js`, a metacharacter path inside the `part_001`
mapping, and a missing secret for `part_003`. -/
theorem c3_startup_fails_fast_witness :
    startupApp (fun _ => true) (some "k") (some "rel.sh") none = none ∧
    startupP1 (fun _ => true) (some "k") none [("o/r", "/x;y.sh")] = none ∧
    startupP3 none (some "/opt/d.sh") = none :=
  ⟨c3_startup_fails_fast.1 (fun _ => true) (some "k") (some "rel.sh") none
     (Or.inr (Or.inr (Or.inr (by decide)))),
   c3_startup_fails_fast.2.1 (fun _ => true) (some "k") none
     [("o/r", "/x;y.sh")] "o/r" "/x;y.sh" (by simp) (Or.inr (by decide)),
   c3_startup_fails_fast.2.2 none (some "/opt/d.sh") (Or.inl (by decide))⟩

/-! ## Claim C7 — verifier failure modes -/

/-- C7 counterexample: two promises of the claim fail on the code.
(a) The `part_003` verifier never checks the scheme tag — a header beginning
with `md5=` whose second `=`-separated component matches the digest verifies
as `true`, contrary to "verify returns false whenever the header does not
begin with the `sha256=` prefix scheme".  (b) The raw-body verifier does NOT
return false on every malformed-hex or wrong-length header: with digest
`ab`, the header `sha256=abzz` carries a hex payload that is malformed hex
of the wrong length, yet `Buffer.from(·, 'hex')` truncates at the first
invalid character, leaving exactly the digest bytes, and
`verifyGitHubSignature` returns `true` where the claim promised `false`. -/
theorem c7_verify_accepts_malformed_inputs :
    (sigScheme.data.isPrefixOf ("md5=\x7b\x7d").data) = false ∧
    verifySignatureP3 hmacProbe (Json.obj []) (some "md5=\x7b\x7d") "k" = true ∧
    isHexStr "abzz" = false ∧
    ("abzz" : String).length ≠ (hmacProbe "k" "ab").length ∧
    verifyGitHubSignature hmacProbe "k"
      ⟨⟨some "sha256=abzz", none, none⟩, some "ab"⟩ = true :=
  ⟨by decide, by rfl, by decide, by decide, by rfl⟩

/-- C7 (corrected, amended claim): the raw-body verifier
(`verifyGitHubSignature`) returns false — with the `try/catch` folding every
decode or length exception into false rather than raising — whenever the
header is absent, lacks the `sha256=` scheme, the raw body was not captured,
or the DECODED hex payload's length differs from the decoded digest's
length.  The decoded-length condition is strictly weaker than the original
"malformed hex or a length different from the expected digest length":
because Node's `Buffer.from(·, 'hex')` truncates at the first invalid
character, a malformed, wrong-length payload whose valid hex prefix decodes
to exactly the digest bytes is ACCEPTED (counterexample part (b)).  The
`part_003` verifier returns false for an absent header or a header with no
`=`-separated second component, but does NOT reject a non-`sha256=` scheme
(counterexample part (a)). -/
theorem c7_verify_failure_modes :
    (∀ (hmacHex : String → String → String) (secret : String) (req : Req),
       (req.headers.sig = none ∨
        (∃ s, req.headers.sig = some s ∧
           (sigScheme.data.isPrefixOf s.data) = false) ∨
        req.rawBody = none ∨
        (∃ s raw, req.headers.sig = some s ∧ req.rawBody = some raw ∧
           (hexDecode ⟨s.data.drop 7⟩).length ≠
             (hexDecode (hmacHex secret raw)).length)) →
       verifyGitHubSignature hmacHex secret req = false) ∧
    (∀ (hmacHex : String → String → String) (payload : Json) (secret : String),
       verifySignatureP3 hmacHex payload none secret = false ∧
       ∀ s : String, (s.data.splitOn '=')[1]? = none →
         verifySignatureP3 hmacHex payload (some s) secret = false) := by
  constructor
  · intro hmacHex secret req h
    unfold verifyGitHubSignature
    rcases h with h | ⟨s, hs, hpre⟩ | h | ⟨s, raw, hs, hraw, hlen⟩
    · simp [h]
    · rw [hs]
      by_cases hse : s = "" <;> simp [hse, hpre]
    · cases hsig : req.headers.sig with
      | none => rfl
      | some s =>
        by_cases hse : s = ""
        · simp [hse]
        · by_cases hp : (sigScheme.data.isPrefixOf s.data) = true <;>
            simp [hse, hp, h]
    · rw [hs]
      by_cases hse : s = ""
      · simp [hse]
      · by_cases hp : (sigScheme.data.isPrefixOf s.data) = true <;>
          simp [hse, hp, hraw, timingSafeEqTry, hlen]
  · intro hmacHex payload secret
    refine ⟨rfl, ?_⟩
    intro s hsplit
    unfold verifySignatureP3
    by_cases hse : s = "" <;> simp [hse, hsplit]

/-- Witness for C7: the amended claim applied at concrete requests covering
each failure mode of both verifiers. -/
theorem c7_verify_failure_modes_witness :
    verifyGitHubSignature hmacProbe "k" ⟨⟨none, none, none⟩, some "x"⟩ = false ∧
    verifyGitHubSignature hmacProbe "k"
      ⟨⟨some "sha1=abc", none, none⟩, some "x"⟩ = false ∧
    verifyGitHubSignature hmacProbe "k"
      ⟨⟨some "sha256=ab", none, none⟩, none⟩ = false ∧
    verifyGitHubSignature hmacProbe "k"
      ⟨⟨some "sha256=zz", none, none⟩, some "abcd"⟩ = false ∧
    verifySignatureP3 hmacProbe (Json.obj []) none "k" = false ∧
    verifySignatureP3 hmacProbe (Json.obj []) (some "nodelimiter") "k" = false :=
  ⟨c7_verify_failure_modes.1 hmacProbe "k" ⟨⟨none, none, none⟩, some "x"⟩
     (Or.inl rfl),
   c7_verify_failure_modes.1 hmacProbe "k"
     ⟨⟨some "sha1=abc", none, none⟩, some "x"⟩
     (Or.inr (Or.inl ⟨"sha1=abc", rfl, by decide⟩)),
   c7_verify_failure_modes.1 hmacProbe "k"
     ⟨⟨some "sha256=ab", none, none⟩, none⟩
     (Or.inr (Or.inr (Or.inl rfl))),
   c7_verify_failure_modes.1 hmacProbe "k"
     ⟨⟨some "sha256=zz", none, none⟩, some "abcd"⟩
     (Or.inr (Or.inr (Or.inr ⟨"sha256=zz", "abcd", rfl, rfl, by decide⟩))),
   (c7_verify_failure_modes.2 hmacProbe (Json.obj []) "k").1,
   (c7_verify_failure_modes.2 hmacProbe (Json.obj []) "k").2 "nodelimiter"
     (by decide)⟩

/-! ## Claim C1 — which bytes the verifiers hash -/

theorem utf8Bytes_inj {a b : String} : utf8Bytes a = utf8Bytes b ↔ a = b := by
  constructor
  · intro h
    have hchar : Function.Injective Char.toNat := by
      intro c1 c2 hc
      exact Char.ext (UInt32.ext hc)
    have hdata : a.data = b.data :=
      (List.map_injective_iff.mpr hchar) h
    cases a
    cases b
    exact congrArg String.mk hdata
  · intro h; rw [h]

/-- C1 counterexample: the `part_003` verifier accepts a header whose
payload part is the digest of the RE-SERIALIZED parsed body
(`JSON.stringify(payload)`), which differs from the raw bytes received on
the wire; the digest of the exact raw body (under the same digest function
`hmacProbe`) differs from the accepted header payload, so "verify returns
true iff the header's payload equals the digest over rawBody" fails. -/
theorem c1_p3_hashes_reserialized_body :
    jsonParse c1Raw = some c1Payload ∧
    jsonStringify c1Payload ≠ c1Raw ∧
    c1Header = "sha256=" ++ jsonStringify c1Payload ∧
    verifySignatureP3 hmacProbe c1Payload (some c1Header) "k" = true ∧
    jsonStringify c1Payload ≠ hmacProbe "k" c1Raw :=
  ⟨by rfl, by decide, by decide, by rfl, by decide⟩

/-- C1 (corrected, amended claim): the raw-body variants' verifier operates
on the exact captured raw body — uniformly in the digest function, it
returns true iff a `sha256=`-tagged header is present, the raw body was
captured non-empty, and the hex-decoded header payload equals the
hex-decoded digest of `secret` over that raw body; the `part_003` variant
instead returns true iff the header's second `=`-separated component equals
the digest computed over `JSON.stringify` of the parsed payload — a
re-serialized form, not the raw bytes. -/
theorem c1_verifier_inputs :
    (∀ (hmacHex : String → String → String) (secret : String) (req : Req),
       verifyGitHubSignature hmacHex secret req = true ↔
         ∃ s raw, req.headers.sig = some s ∧
           sigScheme.data <+: s.data ∧
           req.rawBody = some raw ∧ raw ≠ "" ∧
           hexDecode ⟨s.data.drop 7⟩ = hexDecode (hmacHex secret raw)) ∧
    (∀ (hmacHex : String → String → String) (payload : Json) (s secret : String),
       verifySignatureP3 hmacHex payload (some s) secret = true ↔
         ∃ sigChars, (s.data.splitOn '=')[1]? = some sigChars ∧
           (⟨sigChars⟩ : String) = hmacHex secret (jsonStringify payload)) := by
  constructor
  · intro hmacHex secret req
    unfold verifyGitHubSignature
    cases hsig : req.headers.sig with
    | none => simp
    | some s =>
      by_cases hse : s = ""
      · have hpre : ¬ (sigScheme.data <+: ("" : String).data) := by decide
        simp only [hse]
        simp [hpre]
      · by_cases hp : (sigScheme.data.isPrefixOf s.data) = true
        · have hp' : sigScheme.data <+: s.data :=
            List.isPrefixOf_iff_prefix.mp hp
          cases hraw : req.rawBody with
          | none => simp [hse, hp]
          | some raw =>
            by_cases hre : raw = ""
            · simp [hse, hp, hre]
            · simp [hse, hp, hp', hre, timingSafeEqTry_eq_true_iff]
        · have hp' : ¬ (sigScheme.data <+: s.data) :=
            fun hc => hp (List.isPrefixOf_iff_prefix.mpr hc)
          simp [hse, hp, hp']
  · intro hmacHex payload s secret
    unfold verifySignatureP3
    by_cases hse : s = ""
    · have hsp : ((("" : String).data.splitOn '=')[1]? :
          Option (List Char)) = none := by decide
      simp [hse, hsp]
    · simp only [List.get?_eq_getElem?]
      cases hsp : (s.data.splitOn '=')[1]? with
      | none => simp [hse, hsp]
      | some sigChars =>
        have : (utf8Bytes ⟨sigChars⟩ =
            utf8Bytes (hmacHex secret (jsonStringify payload))) ↔
            ((⟨sigChars⟩ : String) = hmacHex secret (jsonStringify payload)) :=
          utf8Bytes_inj
        simp [hse, hsp, timingSafeEqTry_eq_true_iff, this]

/-- Witness for C1: the amended characterization applied at a concrete
correctly-signed request (digest over the raw body) and at a concrete
`part_003` acceptance. -/
theorem c1_verifier_inputs_witness :
    verifyGitHubSignature hmacProbe "k"
      ⟨⟨some "sha256=\x7b\x7d", none, none⟩, some "\x7b\x7d"⟩ = true ∧
    verifySignatureP3 hmacProbe (Json.obj []) (some "sha256=\x7b\x7d") "k"
      = true :=
  ⟨(c1_verifier_inputs.1 hmacProbe "k"
      ⟨⟨some "sha256=\x7b\x7d", none, none⟩, some "\x7b\x7d"⟩).mpr
      ⟨"sha256=\x7b\x7d", "\x7b\x7d", rfl, by decide, rfl, by decide, by rfl⟩,
   (c1_verifier_inputs.2 hmacProbe (Json.obj []) "sha256=\x7b\x7d" "k").mpr
      ⟨("\x7b\x7d" : String).data, by decide, by rfl⟩⟩

/-! ## Further helper lemmas for the dispatch and path claims -/

theorem jsObjGet_eq_none_of_not_mem_keys (e : List (String × String))
    (k : String) (h : ¬ k ∈ e.map Prod.fst) : jsObjGet e k = none := by
  induction e with
  | nil => rfl
  | cons p rest ih =>
    obtain ⟨k', v⟩ := p
    have hk : ¬ k' = k := fun he => h (by simp [he])
    have hr : jsObjGet rest k = none := ih (fun hm => h (by simp [hm]))
    show (match jsObjGet rest k with
      | some r => some r
      | none => if k' = k then some v else none) = none
    rw [hr]
    simp [hk]

theorem posixNormalize_absolute {p : String} (h : p.data.head? = some '/') :
    posixIsAbsolute (posixNormalize p) = true := by
  unfold posixNormalize
  cases hd : p.data with
  | nil => rw [hd] at h; cases h
  | cons c cs =>
    rw [hd] at h
    have hc : c = '/' := by simpa using h
    subst hc
    dsimp only
    split
    · simp [posixIsAbsolute]
    · simp [posixIsAbsolute]

theorem handleAppPush_exec_cmd (existsFs : String → Bool)
    (procEnv : List (String × String)) (cfg : AppConfig) (payload : Json)
    (r : HandlerResult) (c : ExecCall)
    (hres : handleAppPush existsFs procEnv cfg payload = Except.ok r)
    (hexec : r.exec = some c) : c.cmd = "bash " ++ cfg.script := by
  unfold handleAppPush at hres
  repeat' (split at hres)
  all_goals (try (dsimp only at hres))
  repeat' (split at hres)
  all_goals (try cases hres)
  all_goals (try simp_all)
  all_goals (rw [← hexec])

/-! ## Claim C5 — the child process environment -/

set_option maxRecDepth 8192 in
/-- C5 counterexample: in the `part_000` variant an accepted push dispatches
`exec` with NO `env` option, so the child inherits only the parent process
environment; with an empty parent environment the script receives none of
the six context variables, contrary to "the script receives all six
variables" for every accepted push. -/
theorem c5_p0_exec_inherits_parent_env :
    handleP0 hmacProbe jsonParse (fun _ => true) cfgApp pushReqA =
      Except.ok ⟨⟨200, "Deployment started"⟩,
        some ⟨"bash /opt/d.sh", none⟩⟩ ∧
    effectiveEnv [] ⟨"bash /opt/d.sh", none⟩ = [] ∧
    jsObjGet (effectiveEnv [] ⟨"bash /opt/d.sh", none⟩) "GITHUB_BRANCH"
      = none ∧
    jsObjGet (effectiveEnv [] ⟨"bash /opt/d.sh", none⟩) "GITHUB_REPO_FULL_NAME"
      = none :=
  ⟨by rfl, by rfl, by rfl, by rfl⟩

set_option maxRecDepth 4096 in
/-- C5 (corrected, amended claim): in `app.js` (and `part_001`/`part_002`)
the accepted-push child environment is exactly the process environment
extended by the six derived entries — every six-key lookup yields the
derived value and every other key reads through to the parent environment
unchanged; in the `part_000` variant, however, `exec` is invoked without an
`env` option, so the child inherits the parent environment and receives none
of the six variables. -/
theorem c5_child_environment
    (hmacHex : String → String → String) (parse : String → Option Json)
    (existsFs : String → Bool) (procEnv : List (String × String))
    (secret script : String) (branches : List String) (req : Req)
    (fn rn ow ref aft pn : String)
    (hparse : req.rawBody.bind parse = some (pushShape fn rn ow ref aft pn))
    (hver : verifyGitHubSignature hmacHex secret req = true)
    (hevent : req.headers.event = some "push")
    (how : ow ≠ "")
    (hbranch : branches.contains (extractBranch ref) = true)
    (hexists : existsFs script = true) :
    handleApp hmacHex parse existsFs procEnv ⟨secret, script, branches⟩ req =
      Except.ok ⟨⟨200, "Deployment started"⟩,
        some ⟨"bash " ++ script,
          some (procEnv ++
            deployEnvFields fn rn ow (extractBranch ref) aft pn)⟩⟩ ∧
    jsObjGet (procEnv ++ deployEnvFields fn rn ow (extractBranch ref) aft pn)
      "GITHUB_REPO_FULL_NAME" = some fn ∧
    jsObjGet (procEnv ++ deployEnvFields fn rn ow (extractBranch ref) aft pn)
      "GITHUB_REPO_NAME" = some rn ∧
    jsObjGet (procEnv ++ deployEnvFields fn rn ow (extractBranch ref) aft pn)
      "GITHUB_REPO_OWNER" = some ow ∧
    jsObjGet (procEnv ++ deployEnvFields fn rn ow (extractBranch ref) aft pn)
      "GITHUB_BRANCH" = some (extractBranch ref) ∧
    jsObjGet (procEnv ++ deployEnvFields fn rn ow (extractBranch ref) aft pn)
      "GITHUB_COMMIT" = some aft ∧
    jsObjGet (procEnv ++ deployEnvFields fn rn ow (extractBranch ref) aft pn)
      "GITHUB_PUSHER" = some pn ∧
    (∀ k : String, ¬ k ∈ deployEnvKeys →
       jsObjGet (procEnv ++ deployEnvFields fn rn ow (extractBranch ref) aft pn)
         k = jsObjGet procEnv k) := by
  have hmem : extractBranch ref ∈ branches := by
    simpa using hbranch
  refine ⟨?_, ?_, ?_, ?_, ?_, ?_, ?_, ?_⟩
  · unfold handleApp
    rw [hparse]
    simp only [hver, hevent, if_true]
    unfold handleAppPush pushShape
    simp [jget, jLookup, jsStringRecv, jsDisplay, jsTruthy, how, hmem,
      hexists]
  · rw [jsObjGet_append]
    rfl
  · rw [jsObjGet_append]
    rfl
  · rw [jsObjGet_append]
    rfl
  · rw [jsObjGet_append]
    rfl
  · rw [jsObjGet_append]
    rfl
  · rw [jsObjGet_append]
    rfl
  · intro k hk
    rw [jsObjGet_append,
      jsObjGet_eq_none_of_not_mem_keys
        (deployEnvFields fn rn ow (extractBranch ref) aft pn) k hk]

set_option maxRecDepth 8192 in
/-- Witness for C5: the amended claim applied at a concrete accepted push
through the `app.js` handler with a one-entry parent environment. -/
theorem c5_child_environment_witness :
    handleApp hmacProbe jsonParse (fun _ => true) [("PATH", "/bin")]
      ⟨"k", "/opt/d.sh", ["main", "master"]⟩ pushReqA =
      Except.ok ⟨⟨200, "Deployment started"⟩,
        some ⟨"bash /opt/d.sh",
          some ([("PATH", "/bin")] ++
            deployEnvFields "o/r" "r" "own" (extractBranch "refs/heads/main")
              "abc1234def" "u")⟩⟩ :=
  (c5_child_environment hmacProbe jsonParse (fun _ => true) [("PATH", "/bin")]
    "k" "/opt/d.sh" ["main", "master"] pushReqA
    "o/r" "r" "own" "refs/heads/main" "abc1234def" "u"
    rfl (by decide) rfl (by decide) (by decide) rfl).1

/-! ## Claim C8 — routing order of branch filter and target resolution -/

/-- C8 counterexample: in per-repository mode the mapping lookup runs BEFORE
the branch filter — a push to a disallowed branch of an unmapped repository
answers with the no-configuration message, not the wrong-branch message the
claim requires. -/
theorem c8_no_config_answer_precedes_branch_filter :
    cfgP1empty.branches.contains (extractBranch "refs/heads/dev") = false ∧
    handleP1 hmacProbe jsonParse (fun _ => true) [] cfgP1empty devReq =
      Except.ok ⟨⟨200, "No deployment configured for o/r"⟩, none⟩ ∧
    ("No deployment configured for o/r" : String) ≠
      "Ignored push to dev branch" :=
  ⟨by decide, by rfl, by decide⟩

/-- C8 (corrected, amended claim): the per-repository router resolves the
deployment target FIRST — an unmapped repository produces the
no-configuration outcome (HTTP 200) even when the branch is also
disallowed; when a mapping exists, a push to a branch outside
AllowedBranches produces the distinct wrong-branch outcome (HTTP 200), as it
always does in the single-script `app.js` router. -/
theorem c8_resolution_before_branch_filter :
    (∀ (existsFs : String → Bool) (procEnv : List (String × String))
       (cfg : P1Config) (fn ref : String),
       jsObjGet cfg.scripts fn = none →
       handleP1Push existsFs procEnv cfg (pushShapeMin fn ref) =
         Except.ok ⟨⟨200, "No deployment configured for " ++ fn⟩, none⟩) ∧
    (∀ (existsFs : String → Bool) (procEnv : List (String × String))
       (cfg : P1Config) (fn ref p : String),
       jsObjGet cfg.scripts fn = some p → p ≠ "" →
       cfg.branches.contains (extractBranch ref) = false →
       handleP1Push existsFs procEnv cfg (pushShapeMin fn ref) =
         Except.ok ⟨⟨200, "Ignored push to " ++ extractBranch ref ++
           " branch"⟩, none⟩) ∧
    (∀ (existsFs : String → Bool) (procEnv : List (String × String))
       (cfg : AppConfig) (fn ref : String),
       cfg.branches.contains (extractBranch ref) = false →
       handleAppPush existsFs procEnv cfg (pushShapeMin fn ref) =
         Except.ok ⟨⟨200, "Ignored push to " ++ extractBranch ref ++
           " branch"⟩, none⟩) := by
  refine ⟨?_, ?_, ?_⟩
  · intro existsFs procEnv cfg fn ref h
    unfold handleP1Push pushShapeMin
    simp [jget, jLookup, jsStringRecv, jsDisplay, h]
  · intro existsFs procEnv cfg fn ref p h hp hbranch
    have hb : ¬ extractBranch ref ∈ cfg.branches := by simpa using hbranch
    unfold handleP1Push pushShapeMin
    simp [jget, jLookup, jsStringRecv, jsDisplay, h, hp, hb]
  · intro existsFs procEnv cfg fn ref hbranch
    have hb : ¬ extractBranch ref ∈ cfg.branches := by simpa using hbranch
    unfold handleAppPush pushShapeMin
    simp [jget, jLookup, jsStringRecv, jsDisplay, hb]

/-- Witness for C8: the amended routing order applied at concrete pushes to
the disallowed branch `dev`, with and without a mapping entry. -/
theorem c8_resolution_before_branch_filter_witness :
    handleP1Push (fun _ => true) [] ⟨"k", ["main", "master"], []⟩
      (pushShapeMin "o/r" "refs/heads/dev") =
      Except.ok ⟨⟨200, "No deployment configured for o/r"⟩, none⟩ ∧
    handleP1Push (fun _ => true) [] ⟨"k", ["main", "master"],
        [("o/r", "/opt/d.sh")]⟩
      (pushShapeMin "o/r" "refs/heads/dev") =
      Except.ok ⟨⟨200, "Ignored push to dev branch"⟩, none⟩ ∧
    handleAppPush (fun _ => true) [] cfgApp
      (pushShapeMin "o/r" "refs/heads/dev") =
      Except.ok ⟨⟨200, "Ignored push to dev branch"⟩, none⟩ :=
  ⟨c8_resolution_before_branch_filter.1 (fun _ => true) []
     ⟨"k", ["main", "master"], []⟩ "o/r" "refs/heads/dev" rfl,
   c8_resolution_before_branch_filter.2.1 (fun _ => true) []
     ⟨"k", ["main", "master"], [("o/r", "/opt/d.sh")]⟩ "o/r" "refs/heads/dev"
     "/opt/d.sh" rfl (by decide) (by decide),
   c8_resolution_before_branch_filter.2.2 (fun _ => true) [] cfgApp
     "o/r" "refs/heads/dev" (by decide)⟩

/-! ## Claim C10 — path validation and verbatim interpolation -/

/-- C10 (confirmed): `isValidScriptPath p` is true exactly when `p` contains
none of the seven shell metacharacters and `path.normalize p` is absolute;
consequently every absolute metacharacter-free path — whitespace, quotes,
backslashes and newlines included — passes validation; and every `exec`
command the handler ever issues is the verbatim interpolation
`bash <configured script path>`. -/
theorem c10_script_path_validation :
    (∀ p : String, isValidScriptPath p = true ↔
       ((∀ ch ∈ p.data, ¬ ch ∈ shellMetaChars) ∧
        posixIsAbsolute (posixNormalize p) = true)) ∧
    (∀ p : String, p.data.head? = some '/' → hasShellMeta p = false →
       isValidScriptPath p = true) ∧
    (∀ (hmacHex : String → String → String) (parse : String → Option Json)
       (existsFs : String → Bool) (procEnv : List (String × String))
       (cfg : AppConfig) (req : Req) (r : HandlerResult) (c : ExecCall),
       handleApp hmacHex parse existsFs procEnv cfg req = Except.ok r →
       r.exec = some c → c.cmd = "bash " ++ cfg.script) := by
  refine ⟨?_, ?_, ?_⟩
  · intro p
    unfold isValidScriptPath
    by_cases hm : hasShellMeta p = true
    · rw [if_pos hm]
      constructor
      · intro h
        exact absurd h (by simp)
      · rintro ⟨hall, _⟩
        unfold hasShellMeta at hm
        obtain ⟨ch, hchmem, hchc⟩ := List.any_eq_true.mp hm
        exact absurd (by simpa using hchc) (hall ch hchmem)
    · rw [if_neg hm]
      have hmf : hasShellMeta p = false := by simpa using hm
      have hall : ∀ ch ∈ p.data, ¬ ch ∈ shellMetaChars := by
        intro ch hch hmem
        apply hm
        unfold hasShellMeta
        exact List.any_eq_true.mpr ⟨ch, hch, by simpa using hmem⟩
      constructor
      · intro h
        exact ⟨hall, h⟩
      · intro h
        exact h.2
  · intro p hhead hmeta
    unfold isValidScriptPath
    rw [hmeta]
    simpa using posixNormalize_absolute hhead
  · intro hmacHex parse existsFs procEnv cfg req r c hres hexec
    unfold handleApp at hres
    repeat' (split at hres)
    all_goals (try cases hres)
    all_goals (try (simp at hexec))
    all_goals
      (exact handleAppPush_exec_cmd existsFs procEnv cfg _ r c hres hexec)

set_option maxRecDepth 8192 in
/-- Witness for C10: the validation applied at an absolute path containing
spaces, and the command-shape property applied at a concrete accepted
push. -/
theorem c10_script_path_validation_witness :
    isValidScriptPath "/opt/deploy my app.sh" = true ∧
    ExecCall.cmd ⟨"bash /opt/d.sh",
        some (deployEnvFields "o/r" "r" "own" "main" "abc1234def" "u")⟩ =
      "bash " ++ cfgApp.script :=
  ⟨c10_script_path_validation.2.1 "/opt/deploy my app.sh" rfl (by decide),
   c10_script_path_validation.2.2 hmacProbe jsonParse (fun _ => true) []
     cfgApp pushReqA
     ⟨⟨200, "Deployment started"⟩, some ⟨"bash /opt/d.sh",
       some (deployEnvFields "o/r" "r" "own" "main" "abc1234def" "u")⟩⟩
     ⟨"bash /opt/d.sh",
       some (deployEnvFields "o/r" "r" "own" "main" "abc1234def" "u")⟩
     (by rfl) rfl⟩

end AutoDeploy
